import Mathlib

/-!
Shallow embedding of the crypto-screener core (`src/bitcoin_price.py`).

Prices and volumes are modelled as exact rationals (`ℚ`); Python's `None`
becomes `Option.none`.  Python's negative slice `xs[-n:]` (with `n ≤ len xs`)
is `lastN`.  The only non-rational operation in the source, `variance ** 0.5`
in `calculate_bollinger_bands`, is factored out: `calculate_bollinger_core`
takes the standard deviation `std` as an explicit argument, and `IsSqrtOf std
(bollinger_variance ...)` records the constraint `std = sqrt variance` exactly.
-/

namespace Screener

/-- Python `xs[-n:]` for `n ≤ xs.length` (the last `n` elements). -/
def lastN {α : Type} (l : List α) (n : ℕ) : List α :=
  l.drop (l.length - n)

/-- Python `calculate_sma(prices, period)`: `None` when `len(prices) < period`,
else the mean of the last `period` values. -/
def calculate_sma (prices : List ℚ) (period : ℕ) : Option ℚ :=
  if prices.length < period then none
  else some ((lastN prices period).sum / (period : ℚ))

/-- Python `calculate_ema(prices, period)`: seed with the mean of the FIRST `period`
values, then fold `ema = price*k + ema*(1-k)` with `k = 2/(period+1)` over the
remaining prices in order. -/
def calculate_ema (prices : List ℚ) (period : ℕ) : Option ℚ :=
  if prices.length < period then none
  else
    let seed := (prices.take period).sum / (period : ℚ)
    let k : ℚ := 2 / ((period : ℚ) + 1)
    some ((prices.drop period).foldl (fun ema price => price * k + ema * (1 - k)) seed)

/-- The per-step deltas `prices[i] - prices[i-1]` for `i = 1 .. len-1`
(the loop building `deltas` in `calculate_rsi`). -/
def deltasOf (prices : List ℚ) : List ℚ :=
  (prices.zip (prices.drop 1)).map (fun pr => pr.2 - pr.1)

/-- Python `calculate_rsi(prices, period)`: gains/losses over the last `period`
deltas; `100` when the average loss is exactly `0`, else
`100 - 100/(1 + avgGain/avgLoss)`. -/
def calculate_rsi (prices : List ℚ) (period : ℕ) : Option ℚ :=
  if prices.length < period + 1 then none
  else
    let lastDeltas := lastN (deltasOf prices) period
    let gains := lastDeltas.map (fun d => if d > 0 then d else 0)
    let losses := lastDeltas.map (fun d => if d < 0 then -d else 0)
    let avg_gain := gains.sum / (period : ℚ)
    let avg_loss := losses.sum / (period : ℚ)
    if avg_loss = 0 then some 100
    else
      let rs := avg_gain / avg_loss
      some (100 - 100 / (1 + rs))

/-- The record returned by `calculate_macd` (the Python dict with keys
`macd_line`, `signal_line`, `histogram`, `trend`). -/
structure MACDResult where
  macd_line : ℚ
  signal_line : ℚ
  histogram : ℚ
  trend : String
deriving DecidableEq

/-- The `macd_values` history: for each `i` from `slow-1` to `len-1`, the
value `EMA(prices[:i+1], fast) - EMA(prices[:i+1], slow)` when both EMAs are
available (the `if ... is not None` filter in the source). -/
def macd_history (prices : List ℚ) (fast slow : ℕ) : List ℚ :=
  ((List.range prices.length).drop (slow - 1)).filterMap (fun i =>
    match calculate_ema (prices.take (i + 1)) fast,
          calculate_ema (prices.take (i + 1)) slow with
    | some f, some s => some (f - s)
    | _, _ => none)

/-- Python `calculate_macd(prices, fast, slow, signal)`.  In the source
`macd_values[-1]` is only reached with `len(macd_values) ≥ signal`; the
degenerate `signal = 0` case (a Python `IndexError` on the empty history) is
modelled by the `getLast? = none` branch. -/
def calculate_macd (prices : List ℚ) (fast slow signal : ℕ) : Option MACDResult :=
  if prices.length < slow + signal then none
  else
    let macd_values := macd_history prices fast slow
    if macd_values.length < signal then none
    else
      match macd_values.getLast?, calculate_ema macd_values signal with
      | some macd_line, some signal_line =>
          some ⟨macd_line, signal_line, macd_line - signal_line,
            if macd_line > signal_line then "🟢 BULLISH" else "🔴 BEARISH"⟩
      | _, _ => none

/-- The record returned by `calculate_bollinger_bands`. -/
structure BollingerResult where
  upper : ℚ
  middle : ℚ
  lower : ℚ
  position : String
deriving DecidableEq

/-- Python `prices[-1]` (only evaluated on a nonempty list in the source). -/
def currentPriceOf (prices : List ℚ) : ℚ :=
  (prices.getLast?).getD 0

/-- The position classifier of `calculate_bollinger_bands` (lines 200-215):
fractional distances default to `0` when `band_width ≤ 0`, and the 5%
proximity checks come before the strict above/below checks. -/
def bollinger_position (upper lower current_price : ℚ) : String :=
  let band_width := upper - lower
  let distance_from_upper := if band_width > 0 then (upper - current_price) / band_width else 0
  let distance_from_lower := if band_width > 0 then (current_price - lower) / band_width else 0
  if distance_from_upper < 0.05 then "🔴 NEAR UPPER BAND (potentially overbought)"
  else if distance_from_lower < 0.05 then "🟢 NEAR LOWER BAND (potentially oversold)"
  else if current_price > upper then "🔴 ABOVE UPPER BAND (strongly overbought)"
  else if current_price < lower then "🟢 BELOW LOWER BAND (strongly oversold)"
  else "⚪ BETWEEN BANDS (normal range)"

/-- The population variance computed in `calculate_bollinger_bands`:
mean of the squared deviations of the last `period` prices from their mean
(divide by `period`, not `period - 1`). -/
def bollinger_variance (prices : List ℚ) (period : ℕ) : ℚ :=
  let middle := (lastN prices period).sum / (period : ℚ)
  ((lastN prices period).map (fun p => (p - middle) ^ 2)).sum / (period : ℚ)

/-- Predicate: `std` is the exact value of Python's `variance ** 0.5`. -/
def IsSqrtOf (std v : ℚ) : Prop := 0 ≤ std ∧ std * std = v

/-- Python `calculate_bollinger_bands(prices, period, std_dev)` with the standard
deviation `std` passed explicitly (it is `sqrt (bollinger_variance prices
period)` in the source; see `IsSqrtOf`).  The inner `calculate_sma` call is
guarded by the same length test as this function, so it is inlined as the
mean of the last `period` prices. -/
def calculate_bollinger_core (prices : List ℚ) (period : ℕ) (std_dev std : ℚ) :
    Option BollingerResult :=
  if prices.length < period then none
  else
    let middle := (lastN prices period).sum / (period : ℚ)
    let upper := middle + std_dev * std
    let lower := middle - std_dev * std
    some ⟨upper, middle, lower, bollinger_position upper lower (currentPriceOf prices)⟩

/-- One OHLCV candle.  `exchange.fetch_ohlcv` returns raw lists
`[timestamp, open, high, low, close, volume]`; the source indexes them as
`candle[2]` (high), `candle[3]` (low), `candle[4]` (close), `candle[5]`
(volume), which we model as named fields (`open` is a Lean keyword, hence
`opn`). -/
structure Candle where
  timestamp : ℚ
  opn : ℚ
  high : ℚ
  low : ℚ
  close : ℚ
  volume : ℚ
deriving DecidableEq

/-- The true range of candle `cur` given the previous candle `prev`
(the loop body of `calculate_atr`). -/
def true_range (prev cur : Candle) : ℚ :=
  max (cur.high - cur.low) (max |cur.high - prev.close| |cur.low - prev.close|)

/-- The `true_ranges` list of `calculate_atr`: one true range per
consecutive pair of candles, in order. -/
def true_ranges (ohlcv_data : List Candle) : List ℚ :=
  (ohlcv_data.zip (ohlcv_data.drop 1)).map (fun pr => true_range pr.1 pr.2)

/-- Python `calculate_atr(ohlcv_data, period)`: mean of the last `period` true
ranges; `None` when fewer than `period + 1` candles. -/
def calculate_atr (ohlcv_data : List Candle) (period : ℕ) : Option ℚ :=
  if ohlcv_data.length < period + 1 then none
  else
    let trs := true_ranges ohlcv_data
    if trs.length < period then none
    else some ((lastN trs period).sum / (period : ℚ))

/-- The dict returned by `analyze_coin` (one coin's analysis record).
`price`, `change_24h`, `volume_24h` come from the ticker and may be absent
(`None`) in general; the other fields are indicator outputs. -/
structure CoinData where
  symbol : String
  price : Option ℚ
  change_24h : Option ℚ
  volume_24h : Option ℚ
  sma_20 : Option ℚ
  sma_50 : Option ℚ
  rsi : Option ℚ
  rsi_trend : Option String
  macd : Option MACDResult
  volume_ratio : Option ℚ
  avg_volume_20d : Option ℚ
deriving DecidableEq

/-- The `rsi_trend` computation of `analyze_coin`: when at least 15 closes
are available, compare RSI(14) on the full close series with RSI(14) on the
series without its last element. -/
def rsi_trend_of (closing_prices : List ℚ) : Option String :=
  if 15 ≤ closing_prices.length then
    match calculate_rsi closing_prices 14, calculate_rsi closing_prices.dropLast 14 with
    | some rsi_14, some rsi_prev =>
        if rsi_14 < rsi_prev then some "DOWN"
        else if rsi_14 > rsi_prev then some "UP"
        else some "FLAT"
    | _, _ => none
  else none

/-- The pure core of `analyze_coin`: the ticker snapshot (`last`,
`percentage`, `quoteVolume`) and the fetched OHLCV window are parameters;
the fetch itself and the `/USDT` suffix strip are I/O glue outside the core.
Python's `(volume_24h / avg) if avg_volume_20d and avg_volume_20d > 0 else
None` is the `0 < avg` test (truthiness of `avg` is implied by `avg > 0`). -/
def analyze_coin (symbol : String) (current_price change_24h volume_24h : ℚ)
    (ohlcv : List Candle) : Option CoinData :=
  if ohlcv.length < 50 then none
  else
    let closing_prices := ohlcv.map Candle.close
    let volumes := ohlcv.map Candle.volume
    let avg_volume_20d := if 20 ≤ volumes.length then calculate_sma volumes 20 else none
    let volume_ratio :=
      match avg_volume_20d with
      | some avg => if 0 < avg then some (volume_24h / avg) else none
      | none => none
    some
      { symbol := symbol
        price := some current_price
        change_24h := some change_24h
        volume_24h := some volume_24h
        sma_20 := calculate_sma closing_prices 20
        sma_50 := calculate_sma closing_prices 50
        rsi := calculate_rsi closing_prices 14
        rsi_trend := rsi_trend_of closing_prices
        macd := calculate_macd closing_prices 12 26 9
        volume_ratio := volume_ratio
        avg_volume_20d := avg_volume_20d }

/-- Python `s.startswith('🟢')` on the MACD trend string: the prefix is a
single character, so this is a first-character test. -/
def startsWithChar (s : String) (c : Char) : Bool :=
  match s.data with
  | [] => false
  | c0 :: _ => c0 = c

/-- Condition 1 of `screen_coin`: `rsi is not None and rsi < 30`. -/
def rule_oversold (cd : CoinData) : Bool :=
  match cd.rsi with
  | some rsi => decide (rsi < 30)
  | none => false

/-- Condition 2 of `screen_coin`: `rsi is not None and rsi > 70`. -/
def rule_overbought (cd : CoinData) : Bool :=
  match cd.rsi with
  | some rsi => decide (rsi > 70)
  | none => false

/-- Condition 3 of `screen_coin`: `volume_ratio is not None and volume_ratio > 2.0`. -/
def rule_volume_spike (cd : CoinData) : Bool :=
  match cd.volume_ratio with
  | some vr => decide (vr > 2)
  | none => false

/-- Condition 4 of `screen_coin`.  `price and sma_20 and sma_50 and macd` is
Python truthiness: each numeric field must be present AND nonzero (a present
`0.0` is falsy); the `macd` dict, once built, is nonempty hence truthy;
`rsi is not None` accepts any present value. -/
def rule_bullish_setup (cd : CoinData) : Bool :=
  match cd.price, cd.sma_20, cd.sma_50, cd.macd, cd.rsi with
  | some price, some sma_20, some sma_50, some macd, some rsi =>
      decide (price ≠ 0) && decide (sma_20 ≠ 0) && decide (sma_50 ≠ 0) &&
      decide (price > sma_20) && decide (price > sma_50) &&
      startsWithChar macd.trend '🟢' &&
      decide (40 ≤ rsi) && decide (rsi ≤ 60)
  | _, _, _, _, _ => false

/-- Condition 5 of `screen_coin`: truthiness of `price`, `sma_20`, `sma_50`,
`macd` and `rsi_trend` (a string, truthy iff nonempty), `rsi is not None`,
both SMAs above price, bearish MACD trend, and `rsi_trend == "DOWN"`. -/
def rule_breakdown_risk (cd : CoinData) : Bool :=
  match cd.price, cd.sma_20, cd.sma_50, cd.macd, cd.rsi, cd.rsi_trend with
  | some price, some sma_20, some sma_50, some macd, some _, some trend =>
      decide (price ≠ 0) && decide (sma_20 ≠ 0) && decide (sma_50 ≠ 0) &&
      decide (trend ≠ "") &&
      decide (price < sma_20) && decide (price < sma_50) &&
      startsWithChar macd.trend '🔴' &&
      decide (trend = "DOWN")
  | _, _, _, _, _, _ => false

/-- Python `screen_coin(coin_data)`: evaluate the five rules in declaration order,
appending each rule's alert label when its condition holds. -/
def screen_coin (cd : CoinData) : List String :=
  (if rule_oversold cd then ["🟢 OVERSOLD"] else []) ++
  (if rule_overbought cd then ["🔴 OVERBOUGHT"] else []) ++
  (if rule_volume_spike cd then ["📊 VOLUME SPIKE"] else []) ++
  (if rule_bullish_setup cd then ["🚀 BULLISH SETUP"] else []) ++
  (if rule_breakdown_risk cd then ["⚠️  BREAKDOWN RISK"] else [])

/-! ### Spec-side definitions (refinement targets, written from the spec's words) -/

/-- Spec-side true-range list: "true range at step i (i ≥ 1) =
max(high_i − low_i, |high_i − prevClose|, |low_i − prevClose|) where
prevClose is the close of candle i−1", one value per consecutive pair. -/
def spec_true_ranges : List Candle → List ℚ
  | [] => []
  | [_] => []
  | prev :: cur :: rest =>
      max (cur.high - cur.low) (max |cur.high - prev.close| |cur.low - prev.close|) ::
        spec_true_ranges (cur :: rest)

/-- Spec-side EMA recurrence: from a seed, apply
`ema = price*k + ema*(1−k)` over the remaining values in series order. -/
def ema_recurrence (k : ℚ) : ℚ → List ℚ → ℚ
  | ema, [] => ema
  | ema, price :: rest => ema_recurrence k (price * k + ema * (1 - k)) rest

/-! ### Helper lemmas -/

lemma true_ranges_cons (a b : Candle) (t : List Candle) :
    true_ranges (a :: b :: t) = true_range a b :: true_ranges (b :: t) := rfl

lemma true_ranges_eq_spec (l : List Candle) : true_ranges l = spec_true_ranges l := by
  induction l with
  | nil => rfl
  | cons a t ih =>
      cases t with
      | nil => rfl
      | cons b t2 =>
          rw [true_ranges_cons, ih]
          rfl

lemma true_ranges_length (l : List Candle) : (true_ranges l).length = l.length - 1 := by
  simp [true_ranges]

lemma foldl_eq_ema_recurrence (k : ℚ) (l : List ℚ) (seed : ℚ) :
    l.foldl (fun ema price => price * k + ema * (1 - k)) seed = ema_recurrence k seed l := by
  induction l generalizing seed with
  | nil => rfl
  | cons p t ih => simp [List.foldl, ema_recurrence, ih]

lemma deltasOf_cons (a b : ℚ) (t : List ℚ) :
    deltasOf (a :: b :: t) = (b - a) :: deltasOf (b :: t) := rfl

lemma deltasOf_nonneg (prices : List ℚ) (h : prices.Chain' (· ≤ ·)) :
    ∀ d ∈ deltasOf prices, 0 ≤ d := by
  induction prices with
  | nil => simp [deltasOf]
  | cons a t ih =>
      cases t with
      | nil => simp [deltasOf]
      | cons b t2 =>
          rw [List.chain'_cons] at h
          intro d hd
          rw [deltasOf_cons, List.mem_cons] at hd
          rcases hd with hd | hd
          · simpa [hd] using sub_nonneg.mpr h.1
          · exact ih h.2 d hd

/-! ### Claim theorems -/

/-- C1: for every candle sequence of length ≥ period+1 (period ≥ 1, the
divisor of the mean), `calculate_atr` returns the arithmetic mean of the
last `period` true-range values, where the true range at step i is
max(high_i − low_i, |high_i − prevClose|, |low_i − prevClose|) with
prevClose the close of candle i−1. -/
theorem atr_mean_of_true_ranges (candles : List Candle) (period : ℕ)
    (hp : 0 < period) (hlen : period + 1 ≤ candles.length) :
    calculate_atr candles period =
      some ((lastN (spec_true_ranges candles) period).sum / (period : ℚ)) := by
  have h1 : ¬ candles.length < period + 1 := by omega
  have h2 : ¬ (spec_true_ranges candles).length < period := by
    rw [← true_ranges_eq_spec, true_ranges_length]; omega
  simp only [calculate_atr, h1, if_false, true_ranges_eq_spec, h2]

/-- Witness for C1 at a concrete two-candle window. -/
theorem atr_mean_of_true_ranges_witness :
    calculate_atr [⟨0, 0, 5, 1, 4, 0⟩, ⟨1, 0, 9, 2, 8, 0⟩] 1 =
      some ((lastN (spec_true_ranges [⟨0, 0, 5, 1, 4, 0⟩, ⟨1, 0, 9, 2, 8, 0⟩]) 1).sum / (1 : ℚ)) ∧
    calculate_atr [⟨0, 0, 5, 1, 4, 0⟩, ⟨1, 0, 9, 2, 8, 0⟩] 1 = some 7 := by
  refine ⟨atr_mean_of_true_ranges _ 1 (by decide) (by decide), ?_⟩
  rw [atr_mean_of_true_ranges _ 1 (by decide) (by decide)]
  norm_num [spec_true_ranges, lastN]

/-- C5: each of SMA, EMA, RSI, MACD, Bollinger and ATR returns the
unavailable sentinel `none` (never a numeric value) whenever its input is
shorter than its stated minimum, for every choice of period(s). -/
theorem indicators_unavailable_short_history
    (p1 p2 p3 p4 p5 : List ℚ) (candles : List Candle)
    (period fast slow signal : ℕ) (std_dev std : ℚ)
    (h1 : p1.length < period) (h2 : p2.length < period)
    (h3 : p3.length < period + 1) (h4 : p4.length < slow + signal)
    (h5 : p5.length < period) (h6 : candles.length < period + 1) :
    calculate_sma p1 period = none ∧
    calculate_ema p2 period = none ∧
    calculate_rsi p3 period = none ∧
    calculate_macd p4 fast slow signal = none ∧
    calculate_bollinger_core p5 period std_dev std = none ∧
    calculate_atr candles period = none := by
  refine ⟨?_, ?_, ?_, ?_, ?_, ?_⟩ <;>
    simp [calculate_sma, calculate_ema, calculate_rsi, calculate_macd,
      calculate_bollinger_core, calculate_atr, h1, h2, h3, h4, h5, h6]

/-- Witness for C5 at concrete short inputs. -/
theorem indicators_unavailable_short_history_witness :
    calculate_sma [1, 2] 3 = none ∧
    calculate_ema [1, 2] 3 = none ∧
    calculate_rsi [1, 2, 3] 3 = none ∧
    calculate_macd [1, 2] 12 26 9 = none ∧
    calculate_bollinger_core [1, 2] 3 2 1 = none ∧
    calculate_atr [⟨0, 0, 5, 1, 4, 0⟩] 1 = none :=
  indicators_unavailable_short_history [1, 2] [1, 2] [1, 2, 3] [1, 2] [1, 2]
    [⟨0, 0, 5, 1, 4, 0⟩] 3 12 26 9 2 1
    (by decide) (by decide) (by decide) (by decide) (by decide) (by decide)

/-- C6: for every series with length ≥ period ≥ 1, `calculate_ema` equals
the value obtained by seeding with the arithmetic mean of the FIRST
`period` elements and folding `ema = price*k + ema*(1−k)` with
`k = 2/(period+1)` over the remaining elements in series order. -/
theorem ema_seed_and_recurrence (prices : List ℚ) (period : ℕ)
    (hp : 0 < period) (hlen : period ≤ prices.length) :
    calculate_ema prices period =
      some (ema_recurrence (2 / ((period : ℚ) + 1))
        ((prices.take period).sum / (period : ℚ)) (prices.drop period)) := by
  have h1 : ¬ prices.length < period := by omega
  simp only [calculate_ema, h1, if_false, foldl_eq_ema_recurrence]

/-- Witness for C6: `EMA([1,2,3,4,5], 3)` seeds at the mean 2 of the first
three values and follows the recurrence to the value 4. -/
theorem ema_seed_and_recurrence_witness :
    calculate_ema [1, 2, 3, 4, 5] 3 =
      some (ema_recurrence (2 / ((3 : ℚ) + 1)) (([(1 : ℚ), 2, 3, 4, 5].take 3).sum / (3 : ℚ))
        ([(1 : ℚ), 2, 3, 4, 5].drop 3)) ∧
    ([(1 : ℚ), 2, 3, 4, 5].take 3).sum / (3 : ℚ) = 2 ∧
    calculate_ema [1, 2, 3, 4, 5] 3 = some 4 := by
  refine ⟨ema_seed_and_recurrence _ 3 (by decide) (by decide), by norm_num, ?_⟩
  rw [ema_seed_and_recurrence _ 3 (by decide) (by decide)]
  norm_num [ema_recurrence]

/-- C7: for every non-decreasing price series of length ≥ 15,
`calculate_rsi` with period 14 returns exactly 100: all per-step losses are
0, so the average loss is exactly 0 and the saturation rule applies. -/
theorem rsi_saturates_nondecreasing (prices : List ℚ)
    (hlen : 15 ≤ prices.length) (hmono : prices.Chain' (· ≤ ·)) :
    calculate_rsi prices 14 = some 100 := by
  have hguard : ¬ prices.length < 14 + 1 := by omega
  have hzero :
      ((lastN (deltasOf prices) 14).map (fun d => if d < 0 then -d else 0)).sum = 0 := by
    apply List.sum_eq_zero
    intro x hx
    rw [List.mem_map] at hx
    obtain ⟨d, hd, hdx⟩ := hx
    have hdmem : d ∈ deltasOf prices := List.drop_subset _ _ hd
    have := deltasOf_nonneg prices hmono d hdmem
    rw [← hdx, if_neg (by linarith)]
  simp only [calculate_rsi, hguard, if_false, hzero]
  norm_num

/-- Witness for C7 at a concrete non-decreasing 15-element series. -/
theorem rsi_saturates_nondecreasing_witness :
    calculate_rsi [1, 1, 2, 2, 3, 3, 4, 4, 5, 5, 6, 6, 7, 7, 8] 14 = some 100 :=
  rsi_saturates_nondecreasing [1, 1, 2, 2, 3, 3, 4, 4, 5, 5, 6, 6, 7, 7, 8]
    (by decide) (by norm_num [List.chain'_cons])

/-- C8: for every series of length ≥ period+1 (period ≥ 1), the value
returned by `calculate_rsi` satisfies 0 ≤ RSI ≤ 100 in exact arithmetic. -/
theorem rsi_bounded_0_100 (prices : List ℚ) (period : ℕ)
    (hp : 0 < period) (hlen : period + 1 ≤ prices.length) :
    ∃ r, calculate_rsi prices period = some r ∧ 0 ≤ r ∧ r ≤ 100 := by
  have hguard : ¬ prices.length < period + 1 := by omega
  have hG : 0 ≤ ((lastN (deltasOf prices) period).map (fun d => if d > 0 then d else 0)).sum := by
    apply List.sum_nonneg
    intro x hx
    rw [List.mem_map] at hx
    obtain ⟨d, _, hdx⟩ := hx
    rw [← hdx]
    split <;> [linarith; rfl]
  have hL : 0 ≤ ((lastN (deltasOf prices) period).map (fun d => if d < 0 then -d else 0)).sum := by
    apply List.sum_nonneg
    intro x hx
    rw [List.mem_map] at hx
    obtain ⟨d, _, hdx⟩ := hx
    rw [← hdx]
    split <;> [linarith; rfl]
  have hper : (0 : ℚ) < (period : ℚ) := by exact_mod_cast hp
  by_cases hz :
      ((lastN (deltasOf prices) period).map (fun d => if d < 0 then -d else 0)).sum / (period : ℚ) = 0
  · refine ⟨100, ?_, by norm_num, by norm_num⟩
    simp only [calculate_rsi, hguard, if_false, hz, if_true]
  · set G := ((lastN (deltasOf prices) period).map (fun d => if d > 0 then d else 0)).sum with hGdef
    set L := ((lastN (deltasOf prices) period).map (fun d => if d < 0 then -d else 0)).sum with hLdef
    have havgG : 0 ≤ G / (period : ℚ) := div_nonneg hG hper.le
    have havgL : 0 < L / (period : ℚ) := lt_of_le_of_ne (div_nonneg hL hper.le) (Ne.symm hz)
    have hrs : 0 ≤ G / (period : ℚ) / (L / (period : ℚ)) := div_nonneg havgG havgL.le
    refine ⟨100 - 100 / (1 + G / (period : ℚ) / (L / (period : ℚ))), ?_, ?_, ?_⟩
    · simp only [calculate_rsi, hguard, if_false, hz]
    · have h1 : (0 : ℚ) < 1 + G / (period : ℚ) / (L / (period : ℚ)) := by linarith
      have h2 : 100 / (1 + G / (period : ℚ) / (L / (period : ℚ))) ≤ 100 / 1 :=
        div_le_div_of_nonneg_left (by norm_num) (by norm_num) (by linarith)
      linarith
    · have h1 : (0 : ℚ) < 1 + G / (period : ℚ) / (L / (period : ℚ)) := by linarith
      have h2 : 0 < 100 / (1 + G / (period : ℚ) / (L / (period : ℚ))) := by positivity
      linarith

/-- Witness for C8 at a concrete 3-element series with period 2. -/
theorem rsi_bounded_0_100_witness :
    ∃ r, calculate_rsi [1, 3, 2] 2 = some r ∧ 0 ≤ r ∧ r ≤ 100 :=
  rsi_bounded_0_100 [1, 3, 2] 2 (by decide) (by decide)

lemma bollinger_res_eq (prices : List ℚ) (period : ℕ) (std_dev std : ℚ)
    (res : BollingerResult)
    (hres : calculate_bollinger_core prices period std_dev std = some res) :
    res.upper = (lastN prices period).sum / (period : ℚ) + std_dev * std ∧
    res.lower = (lastN prices period).sum / (period : ℚ) - std_dev * std ∧
    res.position = bollinger_position res.upper res.lower (currentPriceOf prices) := by
  by_cases hg : prices.length < period
  · simp [calculate_bollinger_core, hg] at hres
  · simp only [calculate_bollinger_core, hg, if_false, Option.some.injEq] at hres
    subst hres
    exact ⟨rfl, rfl, rfl⟩

lemma bollinger_position_of_above (u l c : ℚ) (hb : 0 < u - l) (hc : u < c) :
    bollinger_position u l c = "🔴 NEAR UPPER BAND (potentially overbought)" := by
  have hneg : (u - c) / (u - l) < 0.05 := by
    have : (u - c) / (u - l) < 0 := div_neg_of_neg_of_pos (by linarith) hb
    linarith
  simp only [bollinger_position, hb, if_true, hneg]

/-- C3: when the band width is positive and the most recent price is
simultaneously within 5% of the upper band and strictly above it, the
Bollinger classifier answers "near upper (overbought)", not
"above upper (strong overbought)": the 5%-proximity check is evaluated
before the strict above check. -/
theorem bollinger_near_upper_precedence (prices : List ℚ) (period : ℕ)
    (std_dev std : ℚ) (res : BollingerResult)
    (hsqrt : IsSqrtOf std (bollinger_variance prices period))
    (hres : calculate_bollinger_core prices period std_dev std = some res)
    (hband : 0 < res.upper - res.lower)
    (hnear : (res.upper - currentPriceOf prices) / (res.upper - res.lower) < 0.05)
    (habove : res.upper < currentPriceOf prices) :
    res.position = "🔴 NEAR UPPER BAND (potentially overbought)" ∧
    res.position ≠ "🔴 ABOVE UPPER BAND (strongly overbought)" := by
  obtain ⟨-, -, hpos⟩ := bollinger_res_eq prices period std_dev std res hres
  rw [hpos, bollinger_position_of_above _ _ _ hband habove]
  exact ⟨rfl, by decide⟩

/-- Witness for C3: prices [0, 10] with period 2, multiplier 1/2 and exact
standard deviation 5 put the last price 10 above the upper band 7.5 yet the
classification is "near upper". -/
theorem bollinger_near_upper_precedence_witness :
    (calculate_bollinger_core [0, 10] 2 (1/2) 5 =
        some ⟨15/2, 5, 5/2, "🔴 NEAR UPPER BAND (potentially overbought)"⟩) ∧
    (⟨15/2, 5, 5/2, "🔴 NEAR UPPER BAND (potentially overbought)"⟩ : BollingerResult).position =
      "🔴 NEAR UPPER BAND (potentially overbought)" := by
  have hres : calculate_bollinger_core [0, 10] 2 (1/2) 5 =
      some ⟨15/2, 5, 5/2, "🔴 NEAR UPPER BAND (potentially overbought)"⟩ := by
    simp only [calculate_bollinger_core, lastN, currentPriceOf, bollinger_position]
    norm_num
  refine ⟨hres, ?_⟩
  exact (bollinger_near_upper_precedence [0, 10] 2 (1/2) 5 _
    (by constructor <;> norm_num [bollinger_variance, lastN])
    hres (by norm_num) (by norm_num [currentPriceOf]) (by norm_num [currentPriceOf])).1

lemma bollinger_position_cases (u l c : ℚ) :
    bollinger_position u l c = "🔴 NEAR UPPER BAND (potentially overbought)" ∨
    bollinger_position u l c = "🟢 NEAR LOWER BAND (potentially oversold)" ∨
    bollinger_position u l c = "⚪ BETWEEN BANDS (normal range)" := by
  unfold bollinger_position
  by_cases hb : u - l > 0
  · by_cases h1 : (u - c) / (u - l) < 0.05
    · left; simp only [hb, if_true, h1]
    · by_cases h2 : (c - l) / (u - l) < 0.05
      · right; left; simp only [hb, if_true, h1, if_false, h2]
      · right; right
        have hcu : ¬ u < c := by
          intro hcu
          exact h1 (by linarith [div_neg_of_neg_of_pos (show u - c < 0 by linarith) hb])
        have hcl : ¬ c < l := by
          intro hcl
          exact h2 (by linarith [div_neg_of_neg_of_pos (show c - l < 0 by linarith) hb])
        simp only [hb, if_true, h1, if_false, h2, hcu, hcl]
  · have h1 : ((0:ℚ) < (5/100 : ℚ)) := by norm_num
    left
    simp only [hb, if_false]
    rw [if_pos]
    norm_num

/-- C4: the Bollinger classifier never answers "above upper (strong
overbought)" or "below lower (strong oversold)": whatever the series, the
period, the multiplier and the standard deviation, the position is one of
"near upper", "near lower" or "between bands". -/
theorem bollinger_position_three_values (prices : List ℚ) (period : ℕ)
    (std_dev std : ℚ) (res : BollingerResult)
    (hres : calculate_bollinger_core prices period std_dev std = some res) :
    res.position = "🔴 NEAR UPPER BAND (potentially overbought)" ∨
    res.position = "🟢 NEAR LOWER BAND (potentially oversold)" ∨
    res.position = "⚪ BETWEEN BANDS (normal range)" := by
  obtain ⟨-, -, hpos⟩ := bollinger_res_eq prices period std_dev std res hres
  rw [hpos]
  exact bollinger_position_cases _ _ _

/-- Witness for C4 at a concrete series (zero band width). -/
theorem bollinger_position_three_values_witness :
    (⟨(3/2 : ℚ), 3/2, 3/2, "🔴 NEAR UPPER BAND (potentially overbought)"⟩ :
        BollingerResult).position = "🔴 NEAR UPPER BAND (potentially overbought)" ∨
    (⟨(3/2 : ℚ), 3/2, 3/2, "🔴 NEAR UPPER BAND (potentially overbought)"⟩ :
        BollingerResult).position = "🟢 NEAR LOWER BAND (potentially oversold)" ∨
    (⟨(3/2 : ℚ), 3/2, 3/2, "🔴 NEAR UPPER BAND (potentially overbought)"⟩ :
        BollingerResult).position = "⚪ BETWEEN BANDS (normal range)" :=
  bollinger_position_three_values [1, 2] 2 2 0 _
    (by simp only [calculate_bollinger_core, lastN, currentPriceOf, bollinger_position]
        norm_num)

lemma mem_ite_singleton (b : Bool) (s x : String) :
    (x ∈ if b then [s] else []) ↔ (b = true ∧ x = s) := by
  cases b <;> simp

lemma mem_screen_coin_iff (cd : CoinData) (x : String) :
    x ∈ screen_coin cd ↔
      (rule_oversold cd = true ∧ x = "🟢 OVERSOLD") ∨
      (rule_overbought cd = true ∧ x = "🔴 OVERBOUGHT") ∨
      (rule_volume_spike cd = true ∧ x = "📊 VOLUME SPIKE") ∨
      (rule_bullish_setup cd = true ∧ x = "🚀 BULLISH SETUP") ∨
      (rule_breakdown_risk cd = true ∧ x = "⚠️  BREAKDOWN RISK") := by
  simp only [screen_coin, List.mem_append, mem_ite_singleton]
  tauto

lemma oversold_mem_iff (cd : CoinData) :
    "🟢 OVERSOLD" ∈ screen_coin cd ↔ rule_oversold cd = true := by
  rw [mem_screen_coin_iff]
  constructor
  · rintro (⟨h, -⟩ | ⟨-, h⟩ | ⟨-, h⟩ | ⟨-, h⟩ | ⟨-, h⟩)
    · exact h
    all_goals exact absurd h (by decide)
  · exact fun h => Or.inl ⟨h, rfl⟩

lemma overbought_mem_iff (cd : CoinData) :
    "🔴 OVERBOUGHT" ∈ screen_coin cd ↔ rule_overbought cd = true := by
  rw [mem_screen_coin_iff]
  constructor
  · rintro (⟨-, h⟩ | ⟨h, -⟩ | ⟨-, h⟩ | ⟨-, h⟩ | ⟨-, h⟩)
    · exact absurd h (by decide)
    · exact h
    all_goals exact absurd h (by decide)
  · exact fun h => Or.inr (Or.inl ⟨h, rfl⟩)

lemma bullish_mem_iff (cd : CoinData) :
    "🚀 BULLISH SETUP" ∈ screen_coin cd ↔ rule_bullish_setup cd = true := by
  rw [mem_screen_coin_iff]
  constructor
  · rintro (⟨-, h⟩ | ⟨-, h⟩ | ⟨-, h⟩ | ⟨h, -⟩ | ⟨-, h⟩)
    · exact absurd h (by decide)
    · exact absurd h (by decide)
    · exact absurd h (by decide)
    · exact h
    · exact absurd h (by decide)
  · exact fun h => Or.inr (Or.inr (Or.inr (Or.inl ⟨h, rfl⟩)))

/-- C10: for every analysis record, the alert list never contains both
OVERSOLD and OVERBOUGHT: `rsi < 30` and `rsi > 70` cannot both hold. -/
theorem oversold_overbought_exclusive (cd : CoinData) :
    ¬("🟢 OVERSOLD" ∈ screen_coin cd ∧ "🔴 OVERBOUGHT" ∈ screen_coin cd) := by
  rintro ⟨h1, h2⟩
  rw [oversold_mem_iff] at h1
  rw [overbought_mem_iff] at h2
  unfold rule_oversold at h1
  unfold rule_overbought at h2
  cases hrsi : cd.rsi with
  | none => rw [hrsi] at h1; exact absurd h1 (by decide)
  | some r =>
      rw [hrsi] at h1 h2
      have hlt : r < 30 := of_decide_eq_true h1
      have hgt : r > 70 := of_decide_eq_true h2
      linarith

/-- A record on which every condition of the C2 claim holds (all five
fields present, price 5 above both SMAs 0, bullish MACD trend, rsi 50 in
[40, 60]) but whose SMAs are the present value `0`. -/
def bullishCexCoin : CoinData :=
  ⟨"CEX", some 5, none, none, some 0, some 0, some 50, none,
    some ⟨1, 0, 1, "🟢 BULLISH"⟩, none, none⟩

/-- C2 counterexample: on `bullishCexCoin` all conditions of the claim hold
— price, sma20, sma50, macd, rsi present, price > sma20, price > sma50,
trend BULLISH, 40 ≤ rsi ≤ 60 — yet no BULLISH SETUP alert is emitted,
because Python truthiness treats the present value `0.0` as absent. -/
theorem bullish_setup_zero_sma_cex :
    bullishCexCoin.price = some 5 ∧
    bullishCexCoin.sma_20 = some 0 ∧
    bullishCexCoin.sma_50 = some 0 ∧
    bullishCexCoin.rsi = some 50 ∧
    bullishCexCoin.macd.map MACDResult.trend = some "🟢 BULLISH" ∧
    ((0 : ℚ) < 5 ∧ (40 : ℚ) ≤ 50 ∧ (50 : ℚ) ≤ 60) ∧
    "🚀 BULLISH SETUP" ∉ screen_coin bullishCexCoin := by
  refine ⟨rfl, rfl, rfl, rfl, rfl, ⟨by norm_num, by norm_num, by norm_num⟩, ?_⟩
  rw [bullish_mem_iff]
  decide

/-- C2 amended: BULLISH_SETUP is emitted iff price, sma20, sma50, macd and
rsi are all present, the numeric fields price, sma20 and sma50 are in
addition nonzero (Python truthiness: a present 0.0 suppresses the rule),
price > sma20, price > sma50, the MACD trend string is the bullish one
(starts with '🟢'), and 40 ≤ rsi ≤ 60. -/
theorem bullish_setup_alert_iff (cd : CoinData) :
    "🚀 BULLISH SETUP" ∈ screen_coin cd ↔
      ∃ price sma20 sma50 macdRes rsi,
        cd.price = some price ∧ cd.sma_20 = some sma20 ∧ cd.sma_50 = some sma50 ∧
        cd.macd = some macdRes ∧ cd.rsi = some rsi ∧
        price ≠ 0 ∧ sma20 ≠ 0 ∧ sma50 ≠ 0 ∧
        sma20 < price ∧ sma50 < price ∧
        startsWithChar macdRes.trend '🟢' = true ∧
        40 ≤ rsi ∧ rsi ≤ 60 := by
  rw [bullish_mem_iff]
  cases hp : cd.price <;> cases h20 : cd.sma_20 <;> cases h50 : cd.sma_50 <;>
    cases hm : cd.macd <;> cases hr : cd.rsi <;>
    simp [rule_bullish_setup, hp, h20, h50, hm, hr, Bool.and_eq_true,
      decide_eq_true_eq, and_assoc]

lemma length_filterMap_of_isSome {α β : Type} (f : α → Option β) (l : List α)
    (h : ∀ a ∈ l, (f a).isSome) : (l.filterMap f).length = l.length := by
  induction l with
  | nil => rfl
  | cons a t ih =>
      rw [List.filterMap_cons]
      have ha := h a (List.mem_cons_self a t)
      cases hfa : f a with
      | none => rw [hfa] at ha; exact absurd ha (by simp)
      | some b =>
          simp only [List.length_cons]
          rw [ih (fun x hx => h x (List.mem_cons_of_mem a hx))]

lemma sma_isSome (l : List ℚ) (p : ℕ) (h : p ≤ l.length) :
    (calculate_sma l p).isSome := by
  simp [calculate_sma, Nat.not_lt.mpr h]

lemma ema_isSome (l : List ℚ) (p : ℕ) (h : p ≤ l.length) :
    (calculate_ema l p).isSome := by
  simp [calculate_ema, Nat.not_lt.mpr h]

lemma rsi_isSome (l : List ℚ) (p : ℕ) (h : p + 1 ≤ l.length) :
    (calculate_rsi l p).isSome := by
  simp only [calculate_rsi, Nat.not_lt.mpr h, if_false]
  split <;> simp

lemma macd_history_length_50 (cp : List ℚ) (hlen : cp.length = 50) :
    (macd_history cp 12 26).length = 25 := by
  unfold macd_history
  rw [hlen]
  rw [length_filterMap_of_isSome]
  · decide
  · intro i hi
    have hb : 25 ≤ i ∧ i < 50 := by
      revert hi
      revert i
      decide
    have h12 : (calculate_ema (cp.take (i + 1)) 12).isSome := by
      apply ema_isSome
      rw [List.length_take, hlen]
      omega
    have h26 : (calculate_ema (cp.take (i + 1)) 26).isSome := by
      apply ema_isSome
      rw [List.length_take, hlen]
      omega
    obtain ⟨f, hf⟩ := Option.isSome_iff_exists.mp h12
    obtain ⟨s, hs⟩ := Option.isSome_iff_exists.mp h26
    rw [hf, hs]
    rfl

lemma macd_isSome_50 (cp : List ℚ) (hlen : cp.length = 50) :
    (calculate_macd cp 12 26 9).isSome := by
  have hguard : ¬ cp.length < 26 + 9 := by omega
  have hmv : (macd_history cp 12 26).length = 25 := macd_history_length_50 cp hlen
  have hne : macd_history cp 12 26 ≠ [] := by
    intro h
    rw [h] at hmv
    exact absurd hmv (by decide)
  have hlast := List.getLast?_isSome.mpr hne
  obtain ⟨ml, hml⟩ := Option.isSome_iff_exists.mp hlast
  have hsig : (calculate_ema (macd_history cp 12 26) 9).isSome :=
    ema_isSome _ _ (by omega)
  obtain ⟨sl, hsl⟩ := Option.isSome_iff_exists.mp hsig
  simp only [calculate_macd, hguard, if_false, hmv]
  rw [if_neg (by omega), hml, hsl]
  rfl

lemma rsi_trend_isSome_50 (cp : List ℚ) (hlen : cp.length = 50) :
    (rsi_trend_of cp).isSome := by
  have h1 : (calculate_rsi cp 14).isSome := rsi_isSome _ _ (by omega)
  have h2 : (calculate_rsi cp.dropLast 14).isSome := by
    apply rsi_isSome
    rw [List.length_dropLast]
    omega
  obtain ⟨r1, hr1⟩ := Option.isSome_iff_exists.mp h1
  obtain ⟨r2, hr2⟩ := Option.isSome_iff_exists.mp h2
  simp only [rsi_trend_of, if_pos (by omega : 15 ≤ cp.length), hr1, hr2]
  split <;> [rfl; split <;> rfl]

lemma analyze_coin_fields (symbol : String) (p ch v : ℚ) (ohlcv : List Candle)
    (h : ¬ ohlcv.length < 50) :
    ∃ cd, analyze_coin symbol p ch v ohlcv = some cd ∧
      cd.price = some p ∧ cd.change_24h = some ch ∧ cd.volume_24h = some v ∧
      cd.sma_20 = calculate_sma (ohlcv.map Candle.close) 20 ∧
      cd.sma_50 = calculate_sma (ohlcv.map Candle.close) 50 ∧
      cd.rsi = calculate_rsi (ohlcv.map Candle.close) 14 ∧
      cd.rsi_trend = rsi_trend_of (ohlcv.map Candle.close) ∧
      cd.macd = calculate_macd (ohlcv.map Candle.close) 12 26 9 := by
  unfold analyze_coin
  rw [if_neg h]
  exact ⟨_, rfl, rfl, rfl, rfl, rfl, rfl, rfl, rfl, rfl⟩

/-- C9: with all snapshot fields present, the per-asset analysis yields "no
analysis" (`none`) on a window of exactly 49 candles, and on exactly 50
candles it yields a full record whose snapshot fields carry the ticker
values and whose sma20, sma50, rsi, rsi trend and macd are all available;
the 50-candle minimum is a hard gate independent of the indicator minimums. -/
theorem analysis_candle_gate (symbol : String) (p ch v : ℚ)
    (c49 c50 : List Candle) (h49 : c49.length = 49) (h50 : c50.length = 50) :
    analyze_coin symbol p ch v c49 = none ∧
    ∃ cd, analyze_coin symbol p ch v c50 = some cd ∧
      cd.price = some p ∧ cd.change_24h = some ch ∧ cd.volume_24h = some v ∧
      cd.sma_20.isSome ∧ cd.sma_50.isSome ∧ cd.rsi.isSome ∧
      cd.macd.isSome ∧ cd.rsi_trend.isSome := by
  constructor
  · simp [analyze_coin, h49]
  · have hcp : (c50.map Candle.close).length = 50 := by
      rw [List.length_map, h50]
    obtain ⟨cd, hcd, hpr, hch, hv, hs20, hs50, hrsi, htr, hmacd⟩ :=
      analyze_coin_fields symbol p ch v c50 (by omega)
    refine ⟨cd, hcd, hpr, hch, hv, ?_, ?_, ?_, ?_, ?_⟩
    · rw [hs20]; exact sma_isSome _ _ (by omega)
    · rw [hs50]; exact sma_isSome _ _ (by omega)
    · rw [hrsi]; exact rsi_isSome _ _ (by omega)
    · rw [hmacd]; exact macd_isSome_50 _ hcp
    · rw [htr]; exact rsi_trend_isSome_50 _ hcp

/-- Witness for C9: concrete 49- and 50-candle windows. -/
theorem analysis_candle_gate_witness :
    analyze_coin "BTC" 1 2 3 (List.replicate 49 ⟨0, 0, 2, 1, 1, 3⟩) = none ∧
    ∃ cd, analyze_coin "BTC" 1 2 3 (List.replicate 50 ⟨0, 0, 2, 1, 1, 3⟩) = some cd ∧
      cd.price = some 1 ∧ cd.change_24h = some 2 ∧ cd.volume_24h = some 3 ∧
      cd.sma_20.isSome ∧ cd.sma_50.isSome ∧ cd.rsi.isSome ∧
      cd.macd.isSome ∧ cd.rsi_trend.isSome :=
  analysis_candle_gate "BTC" 1 2 3 (List.replicate 49 ⟨0, 0, 2, 1, 1, 3⟩)
    (List.replicate 50 ⟨0, 0, 2, 1, 1, 3⟩) (by simp) (by simp)

end Screener
